import Mathlib

/-!
A shallow embedding of the webOS Homebrew Channel privileged service
(`src/services/service.ts`) and its elevation patcher
(`src/services/elevate-service.ts`), with theorems checking the
specification's claims about them.
-/

namespace HomebrewChannel

/-!
JavaScript string primitives used by the sources.  `String.replace` with a
string pattern replaces only the first occurrence; `String.includes` is a
substring test.
-/

/-- Replace the first occurrence of `pat` in the character list (JavaScript
`String.replace` with a string pattern). -/
def replaceFirstAux (pat repl : List Char) : List Char → List Char
  | [] => if pat.isPrefixOf ([] : List Char) then repl else []
  | c :: rest =>
    if pat.isPrefixOf (c :: rest) then repl ++ (c :: rest).drop pat.length
    else c :: replaceFirstAux pat repl rest

/-- JavaScript `s.replace(pat, repl)` for string patterns: first occurrence
only; the original string is returned when the pattern does not occur. -/
def jsReplaceFirst (s pat repl : String) : String :=
  ⟨replaceFirstAux pat.data repl.data s.data⟩

/-- Substring test on character lists. -/
def containsSub (pat : List Char) : List Char → Bool
  | [] => pat.isPrefixOf ([] : List Char)
  | c :: rest => pat.isPrefixOf (c :: rest) || containsSub pat rest

/-- JavaScript `s.includes(pat)`. -/
def jsIncludes (s pat : String) : Bool := containsSub pat.data s.data

/-!
Elevation patcher (`src/services/elevate-service.ts`).
-/

/-- The replacement path hard-coded in the NodeJS-style branch of
`patchServiceFile` (elevate-service.ts line 21). -/
def hbServicesBinPath : String :=
  "/media/developer/apps/usr/palm/services/org.webosbrew.hbchannel.service"

/-- The sandbox-launcher invocation the Native-style branch strips
(elevate-service.ts line 25). -/
def jailerInvocation (appName serviceName : String) : String :=
  "/usr/bin/jailer -t native_devmode -i " ++ appName ++
    " -p /media/developer/apps/usr/palm/services/" ++ serviceName ++ " "

/-- Outcome of one `patchServiceFile` call.  `ok newContent changed` is the
normal return (the file holds `newContent`, the function returned `changed`).
`writeUndefined` is the branch where `serviceFileNew` was left `undefined`:
since `undefined !== serviceFileOriginal` holds, the source reaches
`writeFileSync(serviceFile, undefined)`, which throws. -/
inductive PatchResult
  | ok (newContent : String) (changed : Bool)
  | writeUndefined
deriving DecidableEq, Repr

/-- Embedding of `patchServiceFile` (elevate-service.ts lines 16-39),
operating on the file's current content. -/
def patchServiceFile (orig : String) (appName serviceName : Option String) : PatchResult :=
  if jsIncludes orig "jailer" = false then
    let n := jsReplaceFirst orig "/usr/bin" hbServicesBinPath
    if n ≠ orig then .ok n true else .ok n false
  else
    match appName, serviceName with
    | some a, some s =>
      let n := jsReplaceFirst orig (jailerInvocation a s) ""
      if n ≠ orig then .ok n true else .ok n false
    | _, _ => .writeUndefined

/-- An element of a role file's `allowedNames` or `permissions` array: a JSON
string or a permission record. -/
inductive RoleEntry
  | str (s : String)
  | record (service : String) (outbound : List String) (inbound : List String)
deriving DecidableEq, Repr

/-- JavaScript strict equality of a role-file entry against a string literal:
an object is never strictly equal to a string. -/
def RoleEntry.strictEqString : RoleEntry → String → Bool
  | .str t, s => t == s
  | .record _ _ _, _ => false

/-- Parsed role file: the two arrays the patcher amends. -/
structure RoleFile where
  allowedNames : List RoleEntry
  permissions : List RoleEntry
deriving DecidableEq, Repr

/-- The fully-open wildcard permission record the patcher pushes
(elevate-service.ts line 136). -/
def wildcardPermission : RoleEntry := .record "*" ["*"] ["*"]

/-- Embedding of the role-file amendment (elevate-service.ts lines 109-147).
Both presence checks are `some(function (finding) ... finding === "*" ...)`,
modelled by `RoleEntry.strictEqString`. -/
def amendRole (r : RoleFile) : RoleFile :=
  { allowedNames :=
      if r.allowedNames.any (fun f => f.strictEqString "*") then r.allowedNames
      else r.allowedNames ++ [.str "*"],
    permissions :=
      if r.permissions.any (fun f => f.strictEqString "*") then r.permissions
      else r.permissions ++ [wildcardPermission] }

/-- Parsed manifest file: the two permission-file path arrays, each possibly
absent from the document. -/
structure Manifest where
  clientPermissionFiles : Option (List String)
  apiPermissionFiles : Option (List String)
deriving DecidableEq, Repr

/-- Embedding of the manifest amendment (elevate-service.ts lines 85-107):
push each path if the array exists and does not already hold it. -/
def addManifestEntries (m : Manifest) (cp ap : String) : Manifest :=
  { clientPermissionFiles :=
      match m.clientPermissionFiles with
      | some l => some (if l.contains cp then l else l ++ [cp])
      | none => none,
    apiPermissionFiles :=
      match m.apiPermissionFiles with
      | some l => some (if l.contains ap then l else l ++ [ap])
      | none => none }

/-- Abstract filesystem state for one elevation run: the content of each file
the patcher may touch (`none` when the file is absent).  The legacy public
and legacy "private" descriptor paths are the same string in the source
(both use `services/pub`), so a single field models both. -/
structure ElevFS where
  serviceFile : Option String
  clientPermFile : Option String
  apiPermFile : Option String
  manifestFile : Option Manifest
  roleFile : Option RoleFile
  legacyServiceFile : Option String
  legacyPrvRolesFile : Option String
deriving DecidableEq, Repr

/-- Content written when the client permission file is created
(elevate-service.ts lines 63-72). -/
def clientPermContent (serviceName : String) : String :=
  "\x7b\"" ++ serviceName ++ "*\":[\"all\"]\x7d"

/-- Content written when the API permission file is created
(elevate-service.ts lines 74-83). -/
def apiPermContent (serviceName : String) : String :=
  "\x7b\"public\":[\"" ++ serviceName ++ "/*\"]\x7d"

/-- Path of the client permission file. -/
def clientPermPath (serviceName : String) : String :=
  "/var/luna-service2-dev/client-permissions.d/" ++ serviceName ++ ".root.json"

/-- Path of the API permission file. -/
def apiPermPath (serviceName : String) : String :=
  "/var/luna-service2-dev/client-permissions.d/" ++ serviceName ++ ".api.public.json"

/-- Outcome of one run of the patcher's `main`: either it finishes with the
final filesystem state and the `configChanged` flag, or it crashes on an
uncaught exception, leaving the writes performed before the crash. -/
inductive ElevResult
  | ok (fs : ElevFS) (changed : Bool)
  | crashed (fs : ElevFS)
deriving DecidableEq, Repr

/-- Filesystem state at the end of the run, crashed or not. -/
def ElevResult.finalFS : ElevResult → ElevFS
  | .ok fs _ => fs
  | .crashed fs => fs

/-- Filesystem state carried by an intermediate step result. -/
def stepFS : Except ElevFS (ElevFS × Bool) → ElevFS
  | .ok (fs, _) => fs
  | .error fs => fs

/-- Embedding of the current-epoch section of `main` (elevate-service.ts
lines 57-149): patch the service descriptor, create missing permission
files, amend the manifest and the role file.  `Except.error` carries the
filesystem state at an uncaught exception. -/
def epoch3Step (serviceName appName : String) (fs0 : ElevFS) :
    Except ElevFS (ElevFS × Bool) :=
  match fs0.serviceFile with
  | none => .ok (fs0, false)
  | some content =>
    match patchServiceFile content (some appName) (some serviceName) with
    | .writeUndefined => .error fs0
    | .ok n ch =>
      let fs1 := { fs0 with serviceFile := some n }
      let s2 : ElevFS × Bool :=
        match fs1.clientPermFile with
        | some _ => (fs1, ch)
        | none => ({ fs1 with clientPermFile := some (clientPermContent serviceName) }, true)
      let s3 : ElevFS × Bool :=
        match s2.1.apiPermFile with
        | some _ => s2
        | none => ({ s2.1 with apiPermFile := some (apiPermContent serviceName) }, true)
      let s4 : ElevFS × Bool :=
        match s3.1.manifestFile with
        | none => s3
        | some m =>
          let m2 := addManifestEntries m (clientPermPath serviceName) (apiPermPath serviceName)
          if m2 ≠ m then ({ s3.1 with manifestFile := some m2 }, true) else s3
      let s5 : ElevFS × Bool :=
        match s4.1.roleFile with
        | none => s4
        | some r =>
          let r2 := amendRole r
          if r2 ≠ r then ({ s4.1 with roleFile := some r2 }, true) else s4
      .ok s5

/-- Embedding of the legacy section of `main` (elevate-service.ts lines
151-176): the descriptor at the (shared) legacy path is patched twice
without names, then the legacy role file's empty outbound list is widened
by substring replacement. -/
def legacyStep (fs0 : ElevFS) : Except ElevFS (ElevFS × Bool) :=
  match fs0.legacyServiceFile with
  | none => .ok (fs0, false)
  | some c1 =>
    match patchServiceFile c1 none none with
    | .writeUndefined => .error fs0
    | .ok n1 ch1 =>
      let fs1 := { fs0 with legacyServiceFile := some n1 }
      match patchServiceFile n1 none none with
      | .writeUndefined => .error fs1
      | .ok n2 ch2 =>
        let fs2 := { fs1 with legacyServiceFile := some n2 }
        match fs2.legacyPrvRolesFile with
        | none => .ok (fs2, ch1 || ch2)
        | some rr =>
          let rr2 := jsReplaceFirst rr "\"outbound\":[]" "\"outbound\":[\"*\"]"
          if rr2 ≠ rr then .ok ({ fs2 with legacyPrvRolesFile := some rr2 }, true)
          else .ok (fs2, ch1 || ch2)

/-- Embedding of the patcher's `main` over the abstract filesystem. -/
def elevateMain (serviceName appName : String) (fs0 : ElevFS) : ElevResult :=
  match epoch3Step serviceName appName fs0 with
  | .error fsc => .crashed fsc
  | .ok (fs1, ch1) =>
    match legacyStep fs1 with
    | .error fsc => .crashed fsc
    | .ok (fs2, ch2) => .ok fs2 (ch1 || ch2)

/-- Modelled from the spec: the service-descriptor patch as the claim reads
it, with the replacement path derived from the named service (compare with
`patchServiceFile`, whose path is the fixed `hbServicesBinPath`). -/
def specDerivedServicePatch (orig serviceName : String) : String :=
  jsReplaceFirst orig "/usr/bin" ("/media/developer/apps/usr/palm/services/" ++ serviceName)

/-!
Installer and control service (`src/services/service.ts`).
-/

/-- Modelled from the spec: the response-envelope helpers live in
`protocol.ts`, which is not among the provided sources; section 4.2 of the
spec defines `makeSuccess(fields)` as merging `returnValue: true` with the
given fields, and `makeError(message, extraFields)` as merging
`returnValue: false` and `errorText: message` with the extra fields.
`fields` is `none` when no extra fields are attached. -/
structure Envelope (T : Type) where
  returnValue : Bool
  errorText : Option String
  fields : Option T
deriving DecidableEq, Repr

/-- A success envelope built from a handler's return value. -/
def makeSuccess {T : Type} (v : T) : Envelope T := ⟨true, none, some v⟩

/-- An error envelope with no extra fields. -/
def makeError {T : Type} (msg : String) : Envelope T := ⟨false, some msg, none⟩

/-- An error envelope carrying extra fields. -/
def makeErrorWith {T : Type} (msg : String) (extra : T) : Envelope T :=
  ⟨false, some msg, some extra⟩

/-- One observable action on a bus message: a response or a cancellation. -/
inductive BusEvent (T : Type)
  | respond (e : Envelope T)
  | cancel
deriving DecidableEq, Repr

/-- Whether a bus event is a response. -/
def isRespond {T : Type} : BusEvent T → Bool
  | .respond _ => true
  | .cancel => false

/-- Embedding of `tryRespond` (service.ts lines 164-175): the wrapped
handler either returns a value or throws; a throw is `Except.error` carrying
the stringified error. -/
def tryRespond {T : Type} (run : Except String T) : List (BusEvent T) :=
  match run with
  | .ok v => [.respond (makeSuccess v), .cancel]
  | .error e => [.respond (makeError e), .cancel]

/-- Flag-file state: presence of each path under the preferences
directory. -/
def FlagFS : Type := String → Bool

/-- Path of a flag's marker file (service.ts lines 87-89). -/
def flagPath (flag : String) : String := "/var/luna/preferences/" ++ flag

/-- Embedding of `flagRead` (service.ts lines 94-101): presence test. -/
def flagRead (fs : FlagFS) (flag : String) : Bool := fs (flagPath flag)

/-- Embedding of `flagSet` (service.ts lines 106-119): create or remove the
marker file, then return the re-read state. -/
def flagSet (fs : FlagFS) (flag : String) (enabled : Bool) : FlagFS × Bool :=
  let fs2 : FlagFS := fun p => if p = flagPath flag then enabled else fs p
  (fs2, flagRead fs2 flag)

/-- The field-name/flag-name table (service.ts lines 36-41), in entry
order. -/
def availableFlags : List (String × String) :=
  [("telnetDisabled", "webosbrew_telnet_disabled"),
   ("failsafe", "webosbrew_failsafe"),
   ("sshdEnabled", "webosbrew_sshd_enabled"),
   ("blockUpdates", "webosbrew_block_updates")]

/-- Members of `Object.prototype` in Node, reachable by bracket access on a
plain object literal such as `availableFlags`; their values are functions
(or, for `__proto__`, an object), none of which is `undefined`. -/
def objectPrototypeMembers : List String :=
  ["constructor", "hasOwnProperty", "isPrototypeOf", "propertyIsEnumerable",
   "toLocaleString", "toString", "valueOf",
   "__defineGetter__", "__defineSetter__", "__lookupGetter__", "__lookupSetter__",
   "__proto__"]

/-- The string a template literal produces for the value found at `field` on
the prototype chain: V8 renders an inherited native method as
`function <name>() ... [native code] ...` and `__proto__` (the
`Object.prototype` object itself) as `[object Object]`. -/
def inheritedValueString (field : String) : String :=
  if field = "__proto__" then "[object Object]"
  else "function " ++ field ++ "() \x7b [native code] \x7d"

/-- Result of the JavaScript property access `availableFlags[field]`:
`defined s` means the access produced a non-undefined value whose template
stringification (as used by `flagPath`) is `s`. -/
inductive JsProp
  | defined (asString : String)
  | undefinedVal
deriving DecidableEq, Repr

/-- Property access `availableFlags[field]` on the object literal
(service.ts line 256): an own property yields its flag file name; a name
that is not an own property but is inherited from `Object.prototype`
yields the inherited member (not `undefined`); any other name yields
`undefined`. -/
def availableFlagsLookup (field : String) : JsProp :=
  if field = "telnetDisabled" then .defined "webosbrew_telnet_disabled"
  else if field = "failsafe" then .defined "webosbrew_failsafe"
  else if field = "sshdEnabled" then .defined "webosbrew_sshd_enabled"
  else if field = "blockUpdates" then .defined "webosbrew_block_updates"
  else if objectPrototypeMembers.contains field then
    .defined (inheritedValueString field)
  else .undefinedVal

/-- Embedding of the `setConfiguration` handler (service.ts lines 250-261):
for each payload entry, look the field up via property access; the filter
drops only entries whose lookup is `undefined`, so inherited
`Object.prototype` members pass it and are processed by `flagSet`, whose
`flagPath` template literal stringifies the looked-up value. -/
def setConfiguration (fs : FlagFS) (payload : List (String × Bool)) :
    FlagFS × List (String × Bool) :=
  payload.foldl
    (fun acc fv =>
      match availableFlagsLookup fv.1 with
      | .undefinedVal => acc
      | .defined flagName =>
        let r := flagSet acc.1 flagName fv.2
        (r.1, acc.2 ++ [(fv.1, r.2)]))
    (fs, [])

/-- Embedding of the `getConfiguration` handler (service.ts lines 233-245):
whether the process is root, plus each flag's state. -/
def getConfiguration (fs : FlagFS) (root : Bool) : List (String × Bool) :=
  ("root", root) :: availableFlags.map (fun fl => (fl.1, flagRead fs fl.2))

/-- Observable side effects of one `install` request, in program order. -/
inductive InstallEffect
  | respondStatus (s : String)
  | writeStagingFile
  | unlinkStagingFile
  | callInstallEndpoint
  | toast (msg : String)
  | execElevate (pkg : String)
  | setIdleTimeout (n : Nat)
deriving DecidableEq, Repr

/-- Environment of one `install` request: outcomes of the external calls the
handler awaits, plus the process identity facts it consults. -/
structure InstallEnv where
  root : Bool
  fetchOk : Bool
  fetchStatusText : String
  downloadError : Option String
  fileHash : String
  installResult : Except String String
  toastFail : Option String
  elevateResult : Except String Unit
  selfId : String

/-- The `install` request payload (service.ts line 180). -/
structure InstallPayload where
  ipkUrl : String
  ipkHash : String

/-- The terminal reply of a successful `install` (service.ts line 223). -/
structure InstallReply where
  statusText : String
  finished : Bool
deriving DecidableEq, Repr

/-- Embedding of `elevateService` (service.ts lines 75-82): the patcher
subprocess runs only as root; otherwise the call logs and skips. -/
def elevateServiceModel (root : Bool) (res : Except String Unit) (pkg : String) :
    List InstallEffect × Except String Unit :=
  if root then ([.execElevate pkg], res) else ([], .ok ())

/-- Embedding of the `install` handler body (service.ts lines 181-228):
download, checksum, platform install, toasts, and the self-elevation
special case, with the effect trace in program order. -/
def install (env : InstallEnv) (payload : InstallPayload) :
    Except String InstallReply × List InstallEffect :=
  let eff0 : List InstallEffect := [.respondStatus "Downloading…"]
  if env.fetchOk = false then (.error env.fetchStatusText, eff0)
  else
    let eff1 := eff0 ++ [.writeStagingFile]
    match env.downloadError with
    | some e => (.error e, eff1)
    | none =>
      let eff2 := eff1 ++ [.respondStatus "Verifying…"]
      if env.fileHash ≠ payload.ipkHash then (.error "Invalid file checksum", eff2)
      else
        let eff3 := eff2 ++ [.respondStatus "Installing…", .callInstallEndpoint]
        match env.installResult with
        | .error e => (.error e, eff3)
        | .ok pkgId =>
          let eff4 := eff3 ++ [.toast ("Application installed: " ++ pkgId)]
          match env.toastFail with
          | some e => (.error e, eff4)
          | none =>
            if pkgId = env.selfId then
              let elev := elevateServiceModel env.root env.elevateResult pkgId
              match elev.2 with
              | .error e => (.error e, eff4 ++ elev.1)
              | .ok _ =>
                (.ok ⟨"Finished.", true⟩,
                 eff4 ++ elev.1 ++ [.setIdleTimeout 1, .toast "Homebrew Channel update finished"])
            else (.ok ⟨"Finished.", true⟩, eff4)

/-- The base64 alphabet. -/
def base64Chars : List Char :=
  "ABCDEFGHIJKLMNOPQRSTUVWXYZabcdefghijklmnopqrstuvwxyz0123456789+/".data

/-- One base64 digit. -/
def b64Char (n : Nat) : Char := base64Chars.getD n '='

/-- Standard base64 of a byte list, with padding. -/
def base64Encode : List Nat → List Char
  | [] => []
  | [a] => [b64Char (a / 4), b64Char (a % 4 * 16), '=', '=']
  | [a, b] => [b64Char (a / 4), b64Char (a % 4 * 16 + b / 16), b64Char (b % 16 * 4), '=']
  | a :: b :: c :: rest =>
    b64Char (a / 4) :: b64Char (a % 4 * 16 + b / 16) ::
      b64Char (b % 16 * 4 + c / 64) :: b64Char (c % 64) :: base64Encode rest

/-- JavaScript `buffer.toString('base64')` over a buffer holding the UTF-8
bytes of the captured text. -/
def base64OfString (s : String) : String :=
  ⟨base64Encode (s.toUTF8.toList.map UInt8.toNat)⟩

/-- The response record the `exec` handler builds (service.ts lines
310-316). -/
structure ExecResponse where
  error : Option String
  stdoutString : String
  stdoutBytes : String
  stderrString : String
  stderrBytes : String
deriving DecidableEq, Repr

/-- Captured outcome of `child_process.exec`: `error` is `some message`
exactly when the command exited non-zero or failed to run. -/
structure ExecOutcome where
  error : Option String
  stdout : String
  stderr : String

/-- Embedding of the `exec` handler (service.ts lines 307-323). -/
def execHandler (o : ExecOutcome) : List (BusEvent ExecResponse) :=
  let response : ExecResponse :=
    { error := o.error,
      stdoutString := o.stdout, stdoutBytes := base64OfString o.stdout,
      stderrString := o.stderr, stderrBytes := base64OfString o.stderr }
  match o.error with
  | some msg => [.respond (makeErrorWith msg response)]
  | none => [.respond (makeSuccess response)]

/-!
Theorems for the claims.
-/

/-- C1: the claim says a role file already containing the fully-open
wildcard permission record gains no duplicate on a re-run.  Evaluating the
amendment at such a role file shows the opposite: the allowed-names
wildcard is detected and not duplicated, but a second identical wildcard
permission record is appended, because the presence check compares each
permission record against the string "*", which is never strictly equal to
a record. -/
theorem amendRole_duplicates_wildcard_permission :
    amendRole ⟨[RoleEntry.str "*"], [wildcardPermission]⟩ =
      ⟨[RoleEntry.str "*"], [wildcardPermission, wildcardPermission]⟩ ∧
    (amendRole ⟨[RoleEntry.str "*"], [wildcardPermission]⟩).permissions.count
      wildcardPermission = 2 ∧
    (amendRole ⟨[], []⟩).allowedNames = [RoleEntry.str "*"] ∧
    (amendRole ⟨[], []⟩).permissions = [wildcardPermission] := by
  exact ⟨rfl, rfl, rfl, rfl⟩

/-- C2: the claim says that a jailer-marked descriptor patched without the
application and service names is skipped gracefully: a diagnostic only, no
write, no change, no failure.  In the source `serviceFileNew` stays
undefined in that branch, `serviceFileNew !== serviceFileOriginal` is then
true, and the write branch runs with undefined content, so the run fails
instead of skipping; a patcher run over a legacy descriptor containing the
marker crashes. -/
theorem patchServiceFile_native_without_names_crashes :
    patchServiceFile
      "exec /usr/bin/jailer -t native_devmode -i com.example.app -p /media/developer/apps/usr/palm/services/com.example.app.service /bin/run"
      none none = PatchResult.writeUndefined ∧
    elevateMain "org.webosbrew.hbchannel.service" "org.webosbrew.hbchannel"
      ⟨none, none, none, none, none, some "exec /usr/bin/jailer x", none⟩ =
      ElevResult.crashed
        ⟨none, none, none, none, none, some "exec /usr/bin/jailer x", none⟩ := by
  exact ⟨rfl, rfl⟩

/-- C3: when the downloaded file's digest differs from the requested
`ipkHash`, `install` terminates with the error "Invalid file checksum" and
the platform install endpoint is never invoked. -/
theorem install_checksum_mismatch (env : InstallEnv) (payload : InstallPayload)
    (hfetch : env.fetchOk = true) (hdl : env.downloadError = none)
    (hhash : env.fileHash ≠ payload.ipkHash) :
    (install env payload).1 = Except.error "Invalid file checksum" ∧
    InstallEffect.callInstallEndpoint ∉ (install env payload).2 := by
  unfold install
  simp [hfetch, hdl, hhash]

/-- Witness for C3 at a concrete environment and payload. -/
theorem install_checksum_mismatch_witness :
    (install ⟨true, true, "OK", none, "aaaa", .ok "org.example", none, .ok (),
        "org.webosbrew.hbchannel"⟩ ⟨"http://u", "bbbb"⟩).1 =
      Except.error "Invalid file checksum" ∧
    InstallEffect.callInstallEndpoint ∉
      (install ⟨true, true, "OK", none, "aaaa", .ok "org.example", none, .ok (),
        "org.webosbrew.hbchannel"⟩ ⟨"http://u", "bbbb"⟩).2 :=
  install_checksum_mismatch _ _ rfl rfl (by decide)

/-- C4 counterexample: an `install` whose platform-reported package id
equals the system's own application id, in a process that is not running as
root.  The claim requires the Elevation Patcher subprocess to be invoked;
the code skips it (elevateService logs and returns), while still setting
the idle timeout to 1 and finishing successfully. -/
theorem install_nonroot_selfid_skips_patcher :
    InstallEffect.execElevate "org.webosbrew.hbchannel" ∉
      (install ⟨false, true, "OK", none, "h", .ok "org.webosbrew.hbchannel", none,
        .ok (), "org.webosbrew.hbchannel"⟩ ⟨"u", "h"⟩).2 ∧
    InstallEffect.setIdleTimeout 1 ∈
      (install ⟨false, true, "OK", none, "h", .ok "org.webosbrew.hbchannel", none,
        .ok (), "org.webosbrew.hbchannel"⟩ ⟨"u", "h"⟩).2 ∧
    (install ⟨false, true, "OK", none, "h", .ok "org.webosbrew.hbchannel", none,
        .ok (), "org.webosbrew.hbchannel"⟩ ⟨"u", "h"⟩).1 =
      Except.ok ⟨"Finished.", true⟩ := by
  refine ⟨?_, ?_, rfl⟩ <;> decide

/-- C4 (amended): when the reported installed package id equals the
system's own application id (and the preceding toast succeeded), `install`
invokes the Elevation Patcher subprocess with that id exactly when the
process runs as root, and sets the idle timeout to 1 provided the patcher
subprocess (when invoked) succeeds; for every other installed package id it
never invokes the patcher and never sets the idle timeout. -/
theorem install_self_elevation_amended (env : InstallEnv) (payload : InstallPayload)
    (pkg : String)
    (hfetch : env.fetchOk = true) (hdl : env.downloadError = none)
    (hhash : env.fileHash = payload.ipkHash)
    (hres : env.installResult = Except.ok pkg)
    (htoast : env.toastFail = none) :
    (pkg = env.selfId →
      ((InstallEffect.execElevate pkg ∈ (install env payload).2) ↔ env.root = true) ∧
      ((env.root = false ∨ env.elevateResult = Except.ok ()) →
        InstallEffect.setIdleTimeout 1 ∈ (install env payload).2)) ∧
    (pkg ≠ env.selfId →
      (∀ p, InstallEffect.execElevate p ∉ (install env payload).2) ∧
      (∀ n, InstallEffect.setIdleTimeout n ∉ (install env payload).2)) := by
  unfold install elevateServiceModel
  constructor
  · intro hpkg
    cases hr : env.root <;>
      cases he : env.elevateResult <;>
        simp [hfetch, hdl, hhash, hres, htoast, hpkg, hr, he]
  · intro hpkg
    simp [hfetch, hdl, hhash, hres, htoast, hpkg]

/-- Witness for C4's amended theorem: a root process installing the
system's own application id invokes the patcher and sets the idle
timeout. -/
theorem install_self_elevation_amended_witness :
    (InstallEffect.execElevate "org.webosbrew.hbchannel" ∈
      (install ⟨true, true, "OK", none, "h", .ok "org.webosbrew.hbchannel", none,
        .ok (), "org.webosbrew.hbchannel"⟩ ⟨"u", "h"⟩).2) ∧
    (InstallEffect.setIdleTimeout 1 ∈
      (install ⟨true, true, "OK", none, "h", .ok "org.webosbrew.hbchannel", none,
        .ok (), "org.webosbrew.hbchannel"⟩ ⟨"u", "h"⟩).2) := by
  have h := install_self_elevation_amended
    ⟨true, true, "OK", none, "h", .ok "org.webosbrew.hbchannel", none, .ok (),
      "org.webosbrew.hbchannel"⟩ ⟨"u", "h"⟩ "org.webosbrew.hbchannel"
    rfl rfl rfl rfl rfl
  exact ⟨((h.1 rfl).1).mpr rfl, (h.1 rfl).2 (Or.inr rfl)⟩

/-- C5: every operation wrapped by `tryRespond` produces exactly one
response per request: the success envelope built from the returned value
when the handler returns, the error envelope carrying the stringified
failure when it throws; and in both cases the trailing event is the
unconditional bus cancellation. -/
theorem tryRespond_contract {T : Type} (run : Except String T) :
    (tryRespond run).countP isRespond = 1 ∧
    (tryRespond run).getLast? = some BusEvent.cancel ∧
    tryRespond run =
      [.respond (match run with | .ok v => makeSuccess v | .error e => makeError e),
       .cancel] := by
  cases run <;> exact ⟨rfl, rfl, rfl⟩

/-- C6: the recognized half of the claim holds — for each of the four
recognized fields, set-then-get reports the value just set — and a field
name unknown to both the table and `Object.prototype` is ignored.  The
unrecognized-field half of the claim fails, however: a field naming an
inherited `Object.prototype` member such as "toString" passes the
`flagName !== undefined` filter (property access on the object literal
returns the inherited function, not `undefined`), so `flagSet` runs with
the function stringified into the marker path and the field appears in the
response with the re-read value, refuting "the field is ignored and does
not appear in the response". -/
theorem setConfiguration_prototype_member_not_ignored :
    (setConfiguration (fun _ => false) [("toString", true)]).2 =
      [("toString", true)] ∧
    (setConfiguration (fun _ => false) [("toString", true)]).1
      (flagPath "function toString() \x7b [native code] \x7d") = true ∧
    setConfiguration (fun _ => false) [("bogusField", true)] =
      ((fun _ => false : FlagFS), []) ∧
    (getConfiguration (setConfiguration (fun _ => false)
      [("telnetDisabled", true)]).1 false).lookup "telnetDisabled" = some true ∧
    (getConfiguration (setConfiguration (fun _ => false)
      [("telnetDisabled", false)]).1 false).lookup "telnetDisabled" = some false ∧
    (getConfiguration (setConfiguration (fun _ => false)
      [("failsafe", true)]).1 false).lookup "failsafe" = some true ∧
    (getConfiguration (setConfiguration (fun _ => false)
      [("sshdEnabled", true)]).1 false).lookup "sshdEnabled" = some true ∧
    (getConfiguration (setConfiguration (fun _ => false)
      [("blockUpdates", true)]).1 false).lookup "blockUpdates" = some true := by
  exact ⟨rfl, rfl, rfl, rfl, rfl, rfl, rfl, rfl⟩

/-- The current-epoch section never changes a client permission file that
already exists. -/
theorem epoch3Step_clientPerm (sn an : String) (fs : ElevFS) (c : String)
    (h : fs.clientPermFile = some c) :
    (stepFS (epoch3Step sn an fs)).clientPermFile = some c := by
  obtain ⟨sf, cpf, apf, mf, rf, lsf, lpr⟩ := fs
  simp only [ElevFS.clientPermFile] at h
  subst h
  cases sf with
  | none => rfl
  | some content =>
    cases hp : patchServiceFile content (some an) (some sn) with
    | writeUndefined => simp [epoch3Step, stepFS, hp]
    | ok n ch =>
      cases apf <;> cases mf <;> cases rf <;>
        simp [epoch3Step, stepFS, hp] <;> (repeat' split) <;> simp

/-- The current-epoch section never changes an API permission file that
already exists. -/
theorem epoch3Step_apiPerm (sn an : String) (fs : ElevFS) (c : String)
    (h : fs.apiPermFile = some c) :
    (stepFS (epoch3Step sn an fs)).apiPermFile = some c := by
  obtain ⟨sf, cpf, apf, mf, rf, lsf, lpr⟩ := fs
  simp only [ElevFS.apiPermFile] at h
  subst h
  cases sf with
  | none => rfl
  | some content =>
    cases hp : patchServiceFile content (some an) (some sn) with
    | writeUndefined => simp [epoch3Step, stepFS, hp]
    | ok n ch =>
      cases cpf <;> cases mf <;> cases rf <;>
        simp [epoch3Step, stepFS, hp] <;> (repeat' split) <;> simp

/-- The legacy section touches neither permission file. -/
theorem legacyStep_perms (fs : ElevFS) :
    (stepFS (legacyStep fs)).clientPermFile = fs.clientPermFile ∧
    (stepFS (legacyStep fs)).apiPermFile = fs.apiPermFile := by
  obtain ⟨sf, cpf, apf, mf, rf, lsf, lpr⟩ := fs
  cases lsf with
  | none => exact ⟨rfl, rfl⟩
  | some c1 =>
    cases hp1 : patchServiceFile c1 none none with
    | writeUndefined => simp [legacyStep, stepFS, hp1]
    | ok n1 ch1 =>
      cases hp2 : patchServiceFile n1 none none with
      | writeUndefined => simp [legacyStep, stepFS, hp1, hp2]
      | ok n2 ch2 =>
        cases lpr with
        | none => simp [legacyStep, stepFS, hp1, hp2]
        | some rr =>
          by_cases hc :
            jsReplaceFirst rr "\"outbound\":[]" "\"outbound\":[\"*\"]" = rr
          · simp [legacyStep, stepFS, hp1, hp2, hc]
          · simp [legacyStep, stepFS, hp1, hp2, hc]

/-- C7: a pre-existing client or API permission file is left with its
content unchanged by a patcher run, regardless of that content; the
patcher writes these files only when they are absent. -/
theorem permission_files_write_once (sn an : String) (fs : ElevFS) :
    (∀ c, fs.clientPermFile = some c →
      (elevateMain sn an fs).finalFS.clientPermFile = some c) ∧
    (∀ c, fs.apiPermFile = some c →
      (elevateMain sn an fs).finalFS.apiPermFile = some c) := by
  constructor
  · intro c h
    have h1 := epoch3Step_clientPerm sn an fs c h
    unfold elevateMain
    cases he : epoch3Step sn an fs with
    | error fsc =>
      rw [he] at h1
      simpa [ElevResult.finalFS, stepFS] using h1
    | ok p =>
      obtain ⟨fs1, ch1⟩ := p
      rw [he] at h1
      simp only [stepFS] at h1
      have h2 := (legacyStep_perms fs1).1
      cases hl : legacyStep fs1 with
      | error fsc =>
        rw [hl] at h2
        simp only [stepFS] at h2
        simp [ElevResult.finalFS, hl, h2, h1]
      | ok q =>
        obtain ⟨fs2, ch2⟩ := q
        rw [hl] at h2
        simp only [stepFS] at h2
        simp [ElevResult.finalFS, hl, h2, h1]
  · intro c h
    have h1 := epoch3Step_apiPerm sn an fs c h
    unfold elevateMain
    cases he : epoch3Step sn an fs with
    | error fsc =>
      rw [he] at h1
      simpa [ElevResult.finalFS, stepFS] using h1
    | ok p =>
      obtain ⟨fs1, ch1⟩ := p
      rw [he] at h1
      simp only [stepFS] at h1
      have h2 := (legacyStep_perms fs1).2
      cases hl : legacyStep fs1 with
      | error fsc =>
        rw [hl] at h2
        simp only [stepFS] at h2
        simp [ElevResult.finalFS, hl, h2, h1]
      | ok q =>
        obtain ⟨fs2, ch2⟩ := q
        rw [hl] at h2
        simp only [stepFS] at h2
        simp [ElevResult.finalFS, hl, h2, h1]

/-- Witness for C7 at a concrete filesystem whose permission files hold
arbitrary concrete content. -/
theorem permission_files_write_once_witness :
    (elevateMain "org.webosbrew.hbchannel.service" "org.webosbrew.hbchannel"
      ⟨some "Exec=/usr/bin/run-js-service", some "old client content",
        some "old api content", none, none, none, none⟩).finalFS.clientPermFile =
      some "old client content" ∧
    (elevateMain "org.webosbrew.hbchannel.service" "org.webosbrew.hbchannel"
      ⟨some "Exec=/usr/bin/run-js-service", some "old client content",
        some "old api content", none, none, none, none⟩).finalFS.apiPermFile =
      some "old api content" := by
  refine ⟨?_, ?_⟩
  · exact (permission_files_write_once "org.webosbrew.hbchannel.service"
      "org.webosbrew.hbchannel" _).1 "old client content" rfl
  · exact (permission_files_write_once "org.webosbrew.hbchannel.service"
      "org.webosbrew.hbchannel" _).2 "old api content" rfl

/-- C8 counterexample: patching a NodeJS-style descriptor for a
non-default service/application pair.  The claim expects the replacement
path to be derived from the named service; the code replaces with the
fixed default-application path instead. -/
theorem patchServiceFile_fixed_path_counterexample :
    patchServiceFile "Exec=/usr/bin/run-js-service" (some "com.example.app")
      (some "com.example.app.service") =
      PatchResult.ok
        "Exec=/media/developer/apps/usr/palm/services/org.webosbrew.hbchannel.service/run-js-service"
        true ∧
    specDerivedServicePatch "Exec=/usr/bin/run-js-service" "com.example.app.service" =
      "Exec=/media/developer/apps/usr/palm/services/com.example.app.service/run-js-service" ∧
    ("Exec=/media/developer/apps/usr/palm/services/org.webosbrew.hbchannel.service/run-js-service" : String) ≠
      "Exec=/media/developer/apps/usr/palm/services/com.example.app.service/run-js-service" := by
  refine ⟨rfl, rfl, by decide⟩

/-- C8 (amended): a descriptor without the jailer marker is patched by
replacing the first occurrence of the generic binary directory "/usr/bin"
with the fixed path of the default application's bundled service directory;
the supplied service and application names do not influence the result. -/
theorem patchServiceFile_nodejs_amended (orig : String) (a1 s1 a2 s2 : Option String)
    (h : jsIncludes orig "jailer" = false) :
    patchServiceFile orig a1 s1 = patchServiceFile orig a2 s2 ∧
    ∃ ch, patchServiceFile orig a1 s1 =
      PatchResult.ok (jsReplaceFirst orig "/usr/bin" hbServicesBinPath) ch := by
  unfold patchServiceFile
  simp only [h]
  split_ifs <;> exact ⟨rfl, _, rfl⟩

/-- Witness for C8's amended theorem at a concrete descriptor and two
different name pairs. -/
theorem patchServiceFile_nodejs_amended_witness :
    patchServiceFile "Exec=/usr/bin/x" (some "com.example.app")
        (some "com.example.app.service") =
      patchServiceFile "Exec=/usr/bin/x" none none ∧
    ∃ ch, patchServiceFile "Exec=/usr/bin/x" (some "com.example.app")
        (some "com.example.app.service") =
      PatchResult.ok (jsReplaceFirst "Exec=/usr/bin/x" "/usr/bin" hbServicesBinPath) ch :=
  patchServiceFile_nodejs_amended "Exec=/usr/bin/x" (some "com.example.app")
    (some "com.example.app.service") none none (by decide)

/-- C9: the `exec` handler sends exactly one response; it carries the
string and base64 encodings of both captured outputs, its envelope is an
error envelope exactly when the command failed (non-zero exit or failure to
run), and a success envelope otherwise, with the same four output fields in
both cases. -/
theorem exec_single_response (o : ExecOutcome) :
    (execHandler o).length = 1 ∧
    ∃ env : Envelope ExecResponse,
      execHandler o = [.respond env] ∧
      env.fields = some
        { error := o.error,
          stdoutString := o.stdout, stdoutBytes := base64OfString o.stdout,
          stderrString := o.stderr, stderrBytes := base64OfString o.stderr } ∧
      (env.returnValue = true ↔ o.error = none) ∧
      env.errorText = o.error := by
  obtain ⟨err, sout, serr⟩ := o
  cases err with
  | none => exact ⟨rfl, _, rfl, rfl, by simp [makeSuccess], rfl⟩
  | some msg => exact ⟨rfl, _, rfl, rfl, by simp [makeErrorWith], rfl⟩

/-- C10: the `install` handler never removes the staging file it creates:
no branch of the handler, successful or failing, performs the unlink
effect. -/
theorem install_never_removes_staging (env : InstallEnv) (payload : InstallPayload) :
    InstallEffect.unlinkStagingFile ∉ (install env payload).2 := by
  obtain ⟨root, fetchOk, fst, dl, fh, ir, tf, er, sid⟩ := env
  unfold install elevateServiceModel
  cases root <;> cases er <;> (repeat' split) <;> simp_all

end HomebrewChannel
